import Mathlib

/-!
Shallow embedding of pycart.py (an audio cart machine): the Clock broadcast
service, the Pad playback engine (PyCartButton / PyCartAudio) and the
configuration loader, with proofs about the behaviour of each component.
-/

set_option autoImplicit false

namespace PyCart

/-- Python exceptions the program can raise or surface. -/
inductive PyErr where
  | pyCartError (msg : String)
  | keyError (key : String)
  | fileNotFoundError
  | waveError
  | lookupError (enc : String)
  | unicodeDecodeError
  | tomlDecodeError
  deriving DecidableEq, Repr

/-- A wall-clock instant as read by datetime.now(): hour, minute, second.
datetime guarantees hour < 24, minute < 60, second < 60; theorems carry the
bounds they need as hypotheses. -/
structure Time where
  hour : Nat
  minute : Nat
  second : Nat
  deriving DecidableEq, Repr

/-- Two-digit zero padding, as strftime renders the H, M and S fields
(each below 100 for a valid instant). -/
def pad2 (n : Nat) : String :=
  if n < 10 then "0" ++ toString n else toString n

/-- now.strftime with the pattern H:M:S (each field two digits, colon
separated), as computed in Clock.run. -/
def strftimeHMS (t : Time) : String :=
  pad2 t.hour ++ ":" ++ pad2 t.minute ++ ":" ++ pad2 t.second

/-- Python's format spec 02 applied to an int: left-pad with zeros to a total
width of two (a sign counts towards the width). -/
def fmt02 (n : Int) : String :=
  if 0 ≤ n ∧ n < 10 then "0" ++ toString n else toString n

/-- sec_remaining from Clock.run: (60 - now.second) % 60, with Python's
floor-convention modulo (Int.fmod). -/
def sec_remaining (t : Time) : Int :=
  Int.fmod (60 - (t.second : Int)) 60

/-- min_remaining from Clock.run: (60 + (60 - now.second) // 60) - now.minute - 1,
with Python's floor division (Int.fdiv). -/
def min_remaining (t : Time) : Int :=
  (60 + Int.fdiv (60 - (t.second : Int)) 60) - (t.minute : Int) - 1

/-- The pair of strings a tick of Clock.run passes to every callback:
current_time = now.strftime of H:M:S, and
remaining = "-" followed by min_remaining and sec_remaining, each in
format spec 02, separated by a colon. -/
def tickStrings (t : Time) : String × String :=
  (strftimeHMS t, "-" ++ fmt02 (min_remaining t) ++ ":" ++ fmt02 (sec_remaining t))

/-- Lookup in the callback registry (the Python dict Clock.callbacks, modelled
as an insertion-ordered association list with unique keys). -/
def find_callback {κ : Type} : List (String × κ) → String → Option κ
  | [], _ => none
  | p :: rest, name => if p.1 = name then some p.2 else find_callback rest name

/-- Clock.add_callback: dict insertion; an existing key keeps its position and
receives the new value, a new key is appended. -/
def add_callback {κ : Type} (cbs : List (String × κ)) (name : String) (cb : κ) :
    List (String × κ) :=
  if (find_callback cbs name).isSome then
    cbs.map (fun p => if p.1 = name then (name, cb) else p)
  else cbs ++ [(name, cb)]

/-- Clock.remove_callback: del self.callbacks[name]; removes the entry for the
key, and raises KeyError when the key is absent. -/
def remove_callback {κ : Type} : List (String × κ) → String → Except PyErr (List (String × κ))
  | [], name => .error (.keyError name)
  | p :: rest, name =>
    if p.1 = name then .ok rest
    else
      match remove_callback rest name with
      | .ok rest' => .ok (p :: rest')
      | .error e => .error e

/-- One iteration of the Clock.run loop body: the current time is read once,
then every registered callback is invoked with the two formatted strings.
The result is the list of invocations (key, current_time, remaining) in
registry order. -/
def Clock_tick {κ : Type} (cbs : List (String × κ)) (now : Time) :
    List (String × String × String) :=
  cbs.map (fun p => (p.1, (tickStrings now).1, (tickStrings now).2))

/-! Helper lemmas about the callback registry. -/

theorem find_callback_eq_none_iff {κ : Type} (cbs : List (String × κ)) (name : String) :
    find_callback cbs name = none ↔ name ∉ cbs.map Prod.fst := by
  induction cbs with
  | nil => simp [find_callback]
  | cons p rest ih =>
    by_cases h : p.1 = name
    · simp [find_callback, h]
    · have hne : ¬name = p.1 := fun hn => h hn.symm
      simp [find_callback, h, ih, hne]

theorem remove_callback_absent {κ : Type} (cbs : List (String × κ)) (name : String)
    (h : find_callback cbs name = none) :
    remove_callback cbs name = .error (.keyError name) := by
  induction cbs with
  | nil => rfl
  | cons p rest ih =>
    simp only [find_callback] at h
    by_cases hp : p.1 = name
    · simp [hp] at h
    · simp only [hp, if_neg] at h
      simp [remove_callback, hp, ih h]

theorem remove_callback_present {κ : Type} (cbs : List (String × κ)) (name : String) (v : κ)
    (h : find_callback cbs name = some v) :
    ∃ cbs', remove_callback cbs name = .ok cbs' ∧
      cbs'.map Prod.fst = (cbs.map Prod.fst).erase name := by
  induction cbs with
  | nil => simp [find_callback] at h
  | cons p rest ih =>
    by_cases hp : p.1 = name
    · refine ⟨rest, ?_, ?_⟩
      · simp [remove_callback, hp]
      · simp [List.erase_cons, hp]
    · simp only [find_callback, hp, if_neg, if_false] at h
      obtain ⟨rest', hok, hmap⟩ := ih h
      refine ⟨p :: rest', ?_, ?_⟩
      · simp [remove_callback, hp, hok]
      · have hne : ¬(p.1 == name) = true := by simp [hp]
        simp [List.erase_cons, hne, hmap]

theorem find_callback_of_not_mem {κ : Type} (cbs : List (String × κ)) (name : String)
    (h : name ∉ cbs.map Prod.fst) : find_callback cbs name = none :=
  (find_callback_eq_none_iff cbs name).mpr h

theorem remove_callback_find_other {κ : Type} (cbs : List (String × κ)) (name k : String)
    (hk : k ≠ name) :
    ∀ cbs', remove_callback cbs name = .ok cbs' →
      find_callback cbs' k = find_callback cbs k := by
  induction cbs with
  | nil => intro cbs' h; simp [remove_callback] at h
  | cons p rest ih =>
    intro cbs' h
    by_cases hp : p.1 = name
    · simp only [remove_callback, hp, if_pos rfl] at h
      cases h
      have : ¬(p.1 = k) := by rw [hp]; exact fun hc => hk hc.symm
      simp [find_callback, this]
    · simp only [remove_callback, hp, if_neg, if_false] at h
      cases hrec : remove_callback rest name with
      | ok rest' =>
        rw [hrec] at h
        cases h
        simp [find_callback, ih rest' hrec]
      | error e => rw [hrec] at h; cases h

/-! Claims about the Clock broadcast service. -/

/-- C1 (counterexample): at the instant 14:59:00 — an instant whose seconds
field is 00 — the remaining string produced by a tick is "-01:00", not the
"-00:00" the claim requires at every whole-minute boundary. -/
theorem clock_minute_boundary_counterexample :
    (tickStrings ⟨14, 59, 0⟩).2 = "-01:00" ∧ ("-01:00" : String) ≠ "-00:00" :=
  ⟨rfl, by decide⟩

/-- C1 (amended): each tick formats the current time as strftimeHMS, and the
remaining string is a countdown to the next whole-HOUR boundary: its two
components are nonnegative, the seconds component is below 60, and together
they measure 3600 - (60*minute + second) seconds.  At 14:59:47 this still
yields "-00:13" (less than a minute remains in the hour), but at an instant
with seconds equal to 00 the minutes component is 60 - minute, which is at
least 1, so the remaining string is never "-00:00". -/
theorem clock_tick_hour_countdown (t : Time) (hm : t.minute < 60) (hs : t.second < 60) :
    (tickStrings t).1 = strftimeHMS t ∧
    (tickStrings t).2 = "-" ++ fmt02 (min_remaining t) ++ ":" ++ fmt02 (sec_remaining t) ∧
    0 ≤ min_remaining t ∧ 0 ≤ sec_remaining t ∧ sec_remaining t < 60 ∧
    60 * min_remaining t + sec_remaining t = 3600 - (60 * (t.minute : Int) + t.second) ∧
    (t.second = 0 → min_remaining t = 60 - t.minute ∧ 1 ≤ min_remaining t) := by
  have hdiv : Int.fdiv (60 - (t.second : Int)) 60 = (60 - (t.second : Int)) / 60 :=
    Int.fdiv_eq_ediv _ (by norm_num)
  have hmod : Int.fmod (60 - (t.second : Int)) 60 = (60 - (t.second : Int)) % 60 :=
    Int.fmod_eq_emod _ (by norm_num)
  refine ⟨rfl, rfl, ?_, ?_, ?_, ?_, ?_⟩
  · unfold min_remaining; rw [hdiv]; omega
  · unfold sec_remaining; rw [hmod]; omega
  · unfold sec_remaining; rw [hmod]; omega
  · unfold min_remaining sec_remaining; rw [hdiv, hmod]; omega
  · intro h0
    unfold min_remaining; rw [hdiv]
    constructor <;> (simp [h0]; omega)

/-- Witness for clock_tick_hour_countdown at the fixed instant 14:59:47. -/
theorem clock_tick_hour_countdown_witness :
    (tickStrings ⟨14, 59, 47⟩).1 = "14:59:47" ∧
    (tickStrings ⟨14, 59, 47⟩).2 = "-00:13" ∧
    0 ≤ min_remaining ⟨14, 59, 47⟩ := by
  have h := clock_tick_hour_countdown ⟨14, 59, 47⟩ (by decide) (by decide)
  exact ⟨rfl, rfl, h.2.2.1⟩

/-- C4: Clock.remove_callback with a key that was never registered raises
KeyError (the UnknownObserver fault) rather than silently no-opping, and with
a registered key it removes exactly that observer: afterwards the key is
absent and every other key still maps to the same callback. -/
theorem remove_callback_spec {κ : Type} (cbs : List (String × κ)) (name : String)
    (hnodup : (cbs.map Prod.fst).Nodup) :
    (find_callback cbs name = none → remove_callback cbs name = .error (.keyError name)) ∧
    (∀ v, find_callback cbs name = some v →
      ∃ cbs', remove_callback cbs name = .ok cbs' ∧
        find_callback cbs' name = none ∧
        ∀ k, k ≠ name → find_callback cbs' k = find_callback cbs k) := by
  refine ⟨remove_callback_absent cbs name, ?_⟩
  intro v hv
  obtain ⟨cbs', hok, hmap⟩ := remove_callback_present cbs name v hv
  refine ⟨cbs', hok, ?_, ?_⟩
  · refine find_callback_of_not_mem cbs' name ?_
    rw [hmap]
    exact hnodup.not_mem_erase
  · intro k hk
    exact remove_callback_find_other cbs name k hk cbs' hok

/-- Witness for remove_callback_spec: on the registry holding keys "a" and
"b", removing the never-registered key "c" raises KeyError "c". -/
theorem remove_callback_spec_witness :
    find_callback ([("a", 0), ("b", 1)] : List (String × Nat)) "c" = none ∧
    remove_callback ([("a", 0), ("b", 1)] : List (String × Nat)) "c" =
      .error (.keyError "c") :=
  ⟨rfl, (remove_callback_spec [("a", 0), ("b", 1)] "c" (by decide)).1 rfl⟩

/-- C6: within a single tick every registered observer is invoked exactly once,
all with the identical pair of strings computed from the one time read; and
after unregistering a registered key, a subsequent tick invokes exactly the
remaining observers (the removed key is never invoked, every other key is). -/
theorem Clock_tick_spec {κ : Type} (cbs : List (String × κ)) (now : Time)
    (name : String) (v : κ)
    (hnodup : (cbs.map Prod.fst).Nodup) (hreg : find_callback cbs name = some v) :
    ((Clock_tick cbs now).map (fun e => e.1) = cbs.map Prod.fst) ∧
    (∀ k, k ∈ cbs.map Prod.fst → ((Clock_tick cbs now).map (fun e => e.1)).count k = 1) ∧
    (∀ e, e ∈ Clock_tick cbs now →
      e.2.1 = (tickStrings now).1 ∧ e.2.2 = (tickStrings now).2) ∧
    (∃ cbs', remove_callback cbs name = .ok cbs' ∧
      name ∉ (Clock_tick cbs' now).map (fun e => e.1) ∧
      ∀ k, k ≠ name →
        ((k ∈ (Clock_tick cbs' now).map (fun e => e.1)) ↔ k ∈ cbs.map Prod.fst)) := by
  have hkeys : ∀ (l : List (String × κ)),
      (Clock_tick l now).map (fun e => e.1) = l.map Prod.fst := by
    intro l; simp [Clock_tick, List.map_map]
  refine ⟨hkeys cbs, ?_, ?_, ?_⟩
  · intro k hk
    rw [hkeys cbs]
    exact List.count_eq_one_of_mem hnodup hk
  · intro e he
    simp only [Clock_tick, List.mem_map] at he
    obtain ⟨p, _, hp⟩ := he
    rw [← hp]
    exact ⟨rfl, rfl⟩
  · obtain ⟨cbs', hok, hmap⟩ := remove_callback_present cbs name v hreg
    refine ⟨cbs', hok, ?_, ?_⟩
    · rw [hkeys cbs', hmap]
      exact hnodup.not_mem_erase
    · intro k hk
      rw [hkeys cbs', hmap]
      constructor
      · exact fun h => List.mem_of_mem_erase h
      · intro h
        exact (List.mem_erase_of_ne hk).mpr h

/-- Witness for Clock_tick_spec: two observers "a" and "b" at the instant
10:00:00; the tick invokes exactly the keys "a" then "b". -/
theorem Clock_tick_spec_witness :
    (((["a", "b"] : List String)).Nodup) ∧
    (Clock_tick ([("a", 0), ("b", 1)] : List (String × Nat)) ⟨10, 0, 0⟩).map
      (fun e => e.1) = ["a", "b"] := by
  have h := Clock_tick_spec ([("a", 0), ("b", 1)] : List (String × Nat)) ⟨10, 0, 0⟩
    "a" 0 (by decide) rfl
  exact ⟨by decide, h.1.trans rfl⟩

/-! The Pad playback engine: PyCartAudio and PyCartButton. -/

/-- What the file system holds at a path: nothing, or a sequence of bytes. -/
inductive FileContent where
  | missing
  | present (bytes : List Nat)
  deriving DecidableEq, Repr

/-- ASCII bytes of "RIFF". -/
def RIFF : List Nat := [82, 73, 70, 70]

/-- ASCII bytes of "WAVE". -/
def WAVE : List Nat := [87, 65, 86, 69]

/-- ASCII bytes of "fmt " (with the trailing space). -/
def FMTSP : List Nat := [102, 109, 116, 32]

/-- Model of sndhdr's test_wav header check: the buffer starts with RIFF, has
WAVE at offset 8 and the fmt chunk marker at offset 12; on success the file
type "wav" is reported.  Only the wave-family recognizer is modelled, matching
the containers the application loads (the source's file picker offers .wav). -/
def test_wav (h : List Nat) : Option String :=
  if h.take 4 = RIFF ∧ (h.drop 8).take 4 = WAVE ∧ (h.drop 12).take 4 = FMTSP
  then some "wav" else none

/-- Model of sndhdr.whathdr: opening a missing file raises FileNotFoundError
(an OSError, not a PyCartError); otherwise the first 512 bytes are read and
run through the header tests, yielding some file type or None. -/
def whathdr (f : FileContent) : Except PyErr (Option String) :=
  match f with
  | .missing => .error .fileNotFoundError
  | .present bs => .ok (test_wav (bs.take 512))

/-- Model of simpleaudio.WaveObject.from_wave_file: succeeds on a readable
file with a wave header, returning the audio data; raises on a missing file
or a non-wave file. -/
def from_wave_file (f : FileContent) : Except PyErr (List Nat) :=
  match f with
  | .missing => .error .fileNotFoundError
  | .present bs => if (test_wav (bs.take 512)).isSome then .ok bs else .error .waveError

/-- One loaded playback unit: the sndhdr info (truthy), the source path and
the decoded wave data. -/
structure PyCartAudio where
  info : String
  file : String
  wav : List Nat
  deriving DecidableEq, Repr

/-- PyCartAudio constructor: runs sndhdr.whathdr on the path; a falsy result
raises PyCartError with the message built from the path; otherwise the wave
object is decoded from the same file. -/
def PyCartAudio.init (fname : String) (f : FileContent) : Except PyErr PyCartAudio :=
  match whathdr f with
  | .error e => .error e
  | .ok none =>
    .error (.pyCartError ("Could not load file " ++ fname ++ ". Not a valid audio file."))
  | .ok (some i) =>
    match from_wave_file f with
    | .error e => .error e
    | .ok w => .ok ⟨i, fname, w⟩

/-- Tk widget state of the pad button: normal or disabled. -/
inductive BtnState where
  | normal
  | disabled
  deriving DecidableEq, Repr

/-- The observable state of one PyCartButton: its ordinal id, the held audio
unit (self._file), the label text, the background colour and the widget
state.  defaultBg records the button's construction-time background. -/
structure PadState where
  id : Nat
  file : Option PyCartAudio
  text : String
  bg : String
  btnstate : BtnState
  defaultBg : String
  deriving DecidableEq, Repr

/-- A freshly constructed PyCartButton: no file, label = str(id), default
background, normal widget state. -/
def PadState.construct (id : Nat) (defaultBg : String) : PadState :=
  ⟨id, none, toString id, defaultBg, .normal, defaultBg⟩

/-- Split a character list on the path separator. -/
def splitOnSlash : List Char → List (List Char)
  | [] => [[]]
  | c :: rest =>
    let r := splitOnSlash rest
    if c = '/' then [] :: r
    else
      match r with
      | [] => [[c]]
      | g :: gs => (c :: g) :: gs

/-- Path(fname).name: the final path component (model for paths without a
trailing separator). -/
def pathName (fname : String) : String :=
  String.mk ((splitOnSlash fname.data).getLastD fname.data)

/-- The outcome of PyCartButton.do_load: the pad state after the call, the
error notification shown to the user (messagebox.showerror), if any, and the
exception escaping do_load uncaught, if any. -/
structure LoadResult where
  state : PadState
  notification : Option String
  uncaught : Option PyErr
  deriving DecidableEq, Repr

/-- PyCartButton.do_load: constructs a PyCartAudio from the path; a
PyCartError is caught and shown as an error notification, leaving the pad
unchanged; on success the audio is stored and the button shows the file's
base name on green.  Any other exception (for example FileNotFoundError from
a nonexistent path) is not caught and propagates out of do_load with the pad
unchanged. -/
def do_load (st : PadState) (fname : String) (f : FileContent) : LoadResult :=
  match PyCartAudio.init fname f with
  | .error (.pyCartError msg) => ⟨st, some msg, none⟩
  | .error e => ⟨st, none, some e⟩
  | .ok audioUnit =>
    ⟨{ st with file := some audioUnit, text := pathName fname, bg := "green" }, none, none⟩

/-- PyCartButton.reset: drop the audio unit, restore the label to the id and
the background to the default.  The widget state is left untouched (the
source does not re-enable the button). -/
def PadState.reset (st : PadState) : PadState :=
  { st with file := none, text := toString st.id, bg := st.defaultBg }

/-- PyCartButton.play: when an audio unit is held, spawn a background thread
playing it (returned as the second component); with no unit held, do nothing.
The pad state itself is not modified by play. -/
def PadState.play (st : PadState) : PadState × Option PyCartAudio :=
  match st.file with
  | none => (st, none)
  | some a => (st, some a)

/-- Events observable during one background playback run. -/
inductive PlayEvent where
  | cbStart
  | sound (chunk : Nat)
  | cbStop
  deriving DecidableEq, Repr

/-- PyCartAudio.run: invoke the start callback, play the wave data to
completion (wait_done), then invoke the stop callback; the trace of one
background playback unit. -/
def PyCartAudio.runTrace (a : PyCartAudio) : List PlayEvent :=
  [PlayEvent.cbStart] ++ a.wav.map PlayEvent.sound ++ [PlayEvent.cbStop]

/-- The playback events caused by one play() call: none when no unit is held,
and the events of the spawned unit's run otherwise. -/
def playEvents (st : PadState) : List PlayEvent :=
  match (PadState.play st).2 with
  | none => []
  | some a => PyCartAudio.runTrace a

/-! Claims about the Pad playback engine. -/

/-- C2 (counterexample): loading a nonexistent path on a fresh pad leaves the
pad unchanged but raises FileNotFoundError — an OSError, not the caught
PyCartError — which escapes do_load uncaught: no user-facing notification is
produced and the failure propagates towards the Application shell. -/
theorem do_load_missing_counterexample :
    do_load (PadState.construct 1 "gray") "nope.wav" FileContent.missing =
      ⟨PadState.construct 1 "gray", none, some PyErr.fileNotFoundError⟩ ∧
    some PyErr.fileNotFoundError ≠ none :=
  ⟨rfl, by decide⟩

/-- C2 (amended): for a readable file whose content is not recognized as audio
(in particular an empty file or non-audio content), do_load leaves the pad's
state unchanged, shows a user-facing error notification, and lets nothing
propagate; for a nonexistent path the pad's state is equally unchanged, but
the error is FileNotFoundError, which is not a PyCartError, is not converted
into a notification, and escapes do_load uncaught. -/
theorem do_load_invalid_amended (st : PadState) (fname : String) (bs : List Nat)
    (h : test_wav (bs.take 512) = none) :
    ((do_load st fname (.present bs)).state = st ∧
      (do_load st fname (.present bs)).notification =
        some ("Could not load file " ++ fname ++ ". Not a valid audio file.") ∧
      (do_load st fname (.present bs)).uncaught = none) ∧
    ((do_load st fname .missing).state = st ∧
      (do_load st fname .missing).notification = none ∧
      (do_load st fname .missing).uncaught = some PyErr.fileNotFoundError) := by
  refine ⟨?_, rfl, rfl, rfl⟩
  simp [do_load, PyCartAudio.init, whathdr, h]

/-- Witness for do_load_invalid_amended: the empty file on a fresh pad. -/
theorem do_load_invalid_amended_witness :
    test_wav (([] : List Nat).take 512) = none ∧
    (do_load (PadState.construct 1 "gray") "empty.wav" (.present [])).state =
      PadState.construct 1 "gray" ∧
    (do_load (PadState.construct 1 "gray") "empty.wav" (.present [])).uncaught = none := by
  have h := do_load_invalid_amended (PadState.construct 1 "gray") "empty.wav" [] rfl
  exact ⟨rfl, h.1.1, h.1.2.2⟩

/-- C5: the trace of one successful playback run invokes the start callback
exactly once, the stop callback exactly once, and runs as the start callback
first, then only audio output, then the stop callback last: on_start strictly
precedes all audio and on_stop, and neither callback is omitted or
duplicated. -/
theorem runTrace_callbacks (a : PyCartAudio) :
    (PyCartAudio.runTrace a).count PlayEvent.cbStart = 1 ∧
    (PyCartAudio.runTrace a).count PlayEvent.cbStop = 1 ∧
    ∃ mid, PyCartAudio.runTrace a = PlayEvent.cbStart :: (mid ++ [PlayEvent.cbStop]) ∧
      ∀ e, e ∈ mid → ∃ n, e = PlayEvent.sound n := by
  refine ⟨?_, ?_, a.wav.map PlayEvent.sound, rfl, ?_⟩
  · have hmid : (a.wav.map PlayEvent.sound).count PlayEvent.cbStart = 0 := by
      rw [List.count_eq_zero]
      simp
    simp [PyCartAudio.runTrace, List.count_append, hmid, List.count_cons]
  · have hmid : (a.wav.map PlayEvent.sound).count PlayEvent.cbStop = 0 := by
      rw [List.count_eq_zero]
      simp
    simp [PyCartAudio.runTrace, List.count_append, hmid, List.count_cons]
  · intro e he
    obtain ⟨n, _, hn⟩ := List.mem_map.mp he
    exact ⟨n, hn.symm⟩

/-- C8: for a path holding content with a valid wave header, do_load succeeds
from any prior pad state: the new audio unit replaces whatever was held, the
label becomes the file's base name, the background turns green, and no
notification or uncaught exception results. -/
theorem do_load_valid (st : PadState) (fname : String) (bs : List Nat) (i : String)
    (h : test_wav (bs.take 512) = some i) :
    do_load st fname (.present bs) =
      ⟨{ st with file := some ⟨i, fname, bs⟩, text := pathName fname, bg := "green" },
        none, none⟩ := by
  simp [do_load, PyCartAudio.init, whathdr, from_wave_file, h]

/-- Witness for do_load_valid: a minimal wave-headed file loaded onto a pad
that already holds a sample (Loaded → Loaded, sample replaced). -/
theorem do_load_valid_witness :
    test_wav ((RIFF ++ [0, 0, 0, 0] ++ WAVE ++ FMTSP).take 512) = some "wav" ∧
    do_load { PadState.construct 2 "gray" with
                file := some ⟨"wav", "old.wav", [1]⟩, text := "old.wav", bg := "green" }
      "dir/new.wav" (.present (RIFF ++ [0, 0, 0, 0] ++ WAVE ++ FMTSP)) =
      ⟨{ PadState.construct 2 "gray" with
           file := some ⟨"wav", "dir/new.wav", RIFF ++ [0, 0, 0, 0] ++ WAVE ++ FMTSP⟩,
           text := "new.wav", bg := "green" }, none, none⟩ := by
  constructor
  · rfl
  · have h := do_load_valid
      { PadState.construct 2 "gray" with
          file := some ⟨"wav", "old.wav", [1]⟩, text := "old.wav", bg := "green" }
      "dir/new.wav" (RIFF ++ [0, 0, 0, 0] ++ WAVE ++ FMTSP) "wav" (by decide)
    exact h.trans (by decide)

/-- C9: reset always returns the pad to Idle whatever its prior state — the
sample is dropped, the label shows the id again and the background is the
default — and play() on the resulting Idle pad is a no-op: the state is
untouched, no playback unit is spawned and no callback event fires. -/
theorem reset_then_play_noop (st : PadState) :
    (PadState.reset st).file = none ∧
    (PadState.reset st).bg = st.defaultBg ∧
    (PadState.reset st).text = toString st.id ∧
    PadState.play (PadState.reset st) = (PadState.reset st, none) ∧
    playEvents (PadState.reset st) = [] :=
  ⟨rfl, rfl, rfl, rfl, rfl⟩

/-! The pad as an event system: UI operations interleaved with the callbacks
delivered by background playback threads. -/

/-- The events driving one pad: the load / play / reset operations and the
start / stop callbacks fired by an in-flight playback thread. -/
inductive PadEvent where
  | load (fname : String) (f : FileContent)
  | playClick
  | onStart
  | onStop
  | reset
  deriving DecidableEq, Repr

/-- One pad together with its in-flight playback threads: spawned counts
threads started whose run has not yet fired the start callback, running
counts those between their start and stop callbacks. -/
structure PadSys where
  pad : PadState
  spawned : Nat
  running : Nat
  deriving DecidableEq, Repr

/-- A fresh pad system: a freshly constructed button, no in-flight threads. -/
def PadSys.construct (id : Nat) (defaultBg : String) : PadSys :=
  ⟨PadState.construct id defaultBg, 0, 0⟩

/-- One step of the pad event system; none means the event is not enabled
(a callback with no corresponding in-flight thread).  load applies do_load
(the pad keeps the state do_load leaves, whether or not an exception
escaped); play spawns a thread only when a file is held; the start callback
disables the button and turns it red; the stop callback re-enables it and
turns it green; reset applies PadState.reset. -/
def PadSys.step (s : PadSys) : PadEvent → Option PadSys
  | .load fname f => some { s with pad := (do_load s.pad fname f).state }
  | .playClick =>
    match s.pad.file with
    | none => some s
    | some _ => some { s with spawned := s.spawned + 1 }
  | .onStart =>
    match s.spawned with
    | 0 => none
    | n + 1 => some ⟨{ s.pad with btnstate := .disabled, bg := "red" }, n, s.running + 1⟩
  | .onStop =>
    match s.running with
    | 0 => none
    | n + 1 => some ⟨{ s.pad with btnstate := .normal, bg := "green" }, s.spawned, n⟩
  | .reset => some { s with pad := PadState.reset s.pad }

/-- Run a sequence of pad events; none when some event was not enabled. -/
def PadSys.runEvents (s : PadSys) : List PadEvent → Option PadSys
  | [] => some s
  | e :: rest =>
    match s.step e with
    | none => none
    | some s' => PadSys.runEvents s' rest

/-- Holds when a run never performs reset while a playback thread is in
flight (spawned or running). -/
def noResetWhileBusy (s : PadSys) : List PadEvent → Bool
  | [] => true
  | e :: rest =>
    (match e with
     | .reset => s.spawned + s.running == 0
     | _ => true) &&
    (match s.step e with
     | none => true
     | some s' => noResetWhileBusy s' rest)

/-- The inductive invariant of the pad system under the no-reset-while-busy
discipline: an in-flight thread implies a held file, and an empty pad shows
the default background. -/
def PadInv (s : PadSys) : Prop :=
  (0 < s.spawned + s.running → s.pad.file ≠ none) ∧
  (s.pad.file = none → s.pad.bg = s.pad.defaultBg)

/-- do_load either leaves the pad state untouched (any failure) or stores the
new audio unit with the base name on green (success). -/
theorem do_load_state_cases (st : PadState) (fname : String) (f : FileContent) :
    (do_load st fname f).state = st ∨
    ∃ a, (do_load st fname f).state =
      { st with file := some a, text := pathName fname, bg := "green" } := by
  unfold do_load
  cases h : PyCartAudio.init fname f with
  | error e => cases e <;> simp
  | ok a => exact Or.inr ⟨a, rfl⟩

/-- A pad step never changes the construction-time default background. -/
theorem step_defaultBg (s s' : PadSys) (e : PadEvent)
    (h : PadSys.step s e = some s') : s'.pad.defaultBg = s.pad.defaultBg := by
  cases e with
  | load fname f =>
    simp only [PadSys.step, Option.some.injEq] at h
    subst h
    rcases do_load_state_cases s.pad fname f with hst | ⟨a, hst⟩ <;> simp [hst]
  | playClick =>
    simp only [PadSys.step] at h
    cases hf : s.pad.file <;> rw [hf] at h <;> cases h <;> rfl
  | onStart =>
    simp only [PadSys.step] at h
    cases hn : s.spawned <;> rw [hn] at h <;> cases h <;> rfl
  | onStop =>
    simp only [PadSys.step] at h
    cases hn : s.running <;> rw [hn] at h <;> cases h <;> rfl
  | reset =>
    simp only [PadSys.step, Option.some.injEq] at h
    subst h
    rfl

/-- One enabled step preserves the pad invariant, provided reset only fires
when no thread is in flight. -/
theorem padInv_step (s s' : PadSys) (e : PadEvent) (hinv : PadInv s)
    (hsafe : e = .reset → s.spawned + s.running = 0)
    (hstep : PadSys.step s e = some s') : PadInv s' := by
  obtain ⟨h1, h2⟩ := hinv
  cases e with
  | load fname f =>
    simp only [PadSys.step, Option.some.injEq] at hstep
    subst hstep
    rcases do_load_state_cases s.pad fname f with hst | ⟨a, hst⟩
    · exact ⟨fun hb => by simpa [hst] using h1 hb, fun hf => by simpa [hst] using h2 (by simpa [hst] using hf)⟩
    · refine ⟨fun _ => by simp [hst], fun hf => ?_⟩
      rw [hst] at hf
      simp at hf
  | playClick =>
    simp only [PadSys.step] at hstep
    cases hf : s.pad.file <;> rw [hf] at hstep <;> cases hstep
    · exact ⟨h1, h2⟩
    · exact ⟨fun _ => by simp [hf], fun hc => by simp [hf] at hc⟩
  | onStart =>
    simp only [PadSys.step] at hstep
    cases hn : s.spawned <;> rw [hn] at hstep <;> cases hstep
    have hfile : s.pad.file ≠ none := h1 (by omega)
    exact ⟨fun _ => hfile, fun hc => absurd hc hfile⟩
  | onStop =>
    simp only [PadSys.step] at hstep
    cases hn : s.running <;> rw [hn] at hstep <;> cases hstep
    have hfile : s.pad.file ≠ none := h1 (by omega)
    exact ⟨fun _ => hfile, fun hc => absurd hc hfile⟩
  | reset =>
    simp only [PadSys.step, Option.some.injEq] at hstep
    subst hstep
    have hz := hsafe rfl
    refine ⟨fun hb => ?_, fun _ => rfl⟩
    have hb' : 0 < s.spawned + s.running := hb
    omega

/-- A whole run preserves the pad invariant under the no-reset-while-busy
discipline. -/
theorem padInv_run (evts : List PadEvent) : ∀ s s' : PadSys, PadInv s →
    noResetWhileBusy s evts = true → PadSys.runEvents s evts = some s' →
    PadInv s' := by
  induction evts with
  | nil =>
    intro s s' hinv _ hrun
    simp only [PadSys.runEvents, Option.some.injEq] at hrun
    subst hrun
    exact hinv
  | cons e rest ih =>
    intro s s' hinv hsafe hrun
    simp only [PadSys.runEvents] at hrun
    cases hstep : PadSys.step s e with
    | none => rw [hstep] at hrun; cases hrun
    | some s₁ =>
      rw [hstep] at hrun
      simp only [noResetWhileBusy, hstep, Bool.and_eq_true] at hsafe
      have hguard : e = .reset → s.spawned + s.running = 0 := by
        intro he
        subst he
        have := hsafe.1
        simpa using this
      exact ih s₁ s' (padInv_step s s₁ e hinv hguard hstep) hsafe.2 hrun

/-- A whole run never changes the construction-time default background. -/
theorem runEvents_defaultBg (evts : List PadEvent) : ∀ s s' : PadSys,
    PadSys.runEvents s evts = some s' → s'.pad.defaultBg = s.pad.defaultBg := by
  induction evts with
  | nil =>
    intro s s' hrun
    simp only [PadSys.runEvents, Option.some.injEq] at hrun
    subst hrun
    rfl
  | cons e rest ih =>
    intro s s' hrun
    simp only [PadSys.runEvents] at hrun
    cases hstep : PadSys.step s e with
    | none => rw [hstep] at hrun; cases hrun
    | some s₁ =>
      rw [hstep] at hrun
      exact (ih s₁ s' hrun).trans (step_defaultBg s s₁ e hstep)

/-! Claims about the pad visual-state invariant. -/

/-- C3 (counterexample): the reachable sequence load, play, start callback,
reset, stop callback leaves the pad showing green — the Loaded colour — while
holding no sample: the stop callback fired by the still-running thread
repaints the button green after reset emptied it. -/
theorem pad_visual_counterexample :
    (PadSys.runEvents (PadSys.construct 1 "gray")
        [PadEvent.load "a.wav" (.present (RIFF ++ [0, 0, 0, 0] ++ WAVE ++ FMTSP)),
         PadEvent.playClick, PadEvent.onStart, PadEvent.reset, PadEvent.onStop]).map
      (fun s => (s.pad.bg, s.pad.file)) = some ("green", none) := by
  decide

/-- C3 (amended): over every reachable run in which reset is never performed
while a playback thread is in flight, the pad's visual state stays consistent
with its sample: green (Loaded) or red (Playing) is shown only while a sample
is held, and an empty pad always shows its default background.  Without that
restriction the property fails (see the counterexample: reset during an
active play followed by the stop callback shows Loaded on an empty pad). -/
theorem pad_visual_invariant (id : Nat) (defaultBg : String) (evts : List PadEvent)
    (s' : PadSys)
    (hgb : defaultBg ≠ "green") (hrb : defaultBg ≠ "red")
    (hsafe : noResetWhileBusy (PadSys.construct id defaultBg) evts = true)
    (hrun : PadSys.runEvents (PadSys.construct id defaultBg) evts = some s') :
    ((s'.pad.bg = "green" ∨ s'.pad.bg = "red") → s'.pad.file ≠ none) ∧
    (s'.pad.file = none → s'.pad.bg = s'.pad.defaultBg) := by
  have hinv0 : PadInv (PadSys.construct id defaultBg) :=
    ⟨fun h => by simp [PadSys.construct] at h, fun _ => rfl⟩
  have hinv := padInv_run evts (PadSys.construct id defaultBg) s' hinv0 hsafe hrun
  have hdf : s'.pad.defaultBg = defaultBg :=
    runEvents_defaultBg evts (PadSys.construct id defaultBg) s' hrun
  refine ⟨?_, hinv.2⟩
  intro hbg hfile
  have hbgdf := hinv.2 hfile
  rw [hdf] at hbgdf
  cases hbg with
  | inl hg => exact hgb (hbgdf.symm.trans hg)
  | inr hr => exact hrb (hbgdf.symm.trans hr)

/-- Witness for pad_visual_invariant: load, play, start, stop, reset on a
fresh pad returns it exactly to its initial state. -/
theorem pad_visual_invariant_witness :
    PadSys.runEvents (PadSys.construct 1 "gray")
        [PadEvent.load "a.wav" (.present (RIFF ++ [0, 0, 0, 0] ++ WAVE ++ FMTSP)),
         PadEvent.playClick, PadEvent.onStart, PadEvent.onStop, PadEvent.reset] =
      some (PadSys.construct 1 "gray") ∧
    ((PadSys.construct 1 "gray").pad.file = none →
      (PadSys.construct 1 "gray").pad.bg = (PadSys.construct 1 "gray").pad.defaultBg) := by
  refine ⟨by decide, ?_⟩
  exact (pad_visual_invariant 1 "gray"
    [PadEvent.load "a.wav" (.present (RIFF ++ [0, 0, 0, 0] ++ WAVE ++ FMTSP)),
     PadEvent.playClick, PadEvent.onStart, PadEvent.onStop, PadEvent.reset]
    (PadSys.construct 1 "gray") (by decide) (by decide) (by decide) (by decide)).2

/-! The Clock thread lifecycle: the run loop (while self.enabled: tick; sleep)
interleaved with stop() (self.enabled = False; self.join()), as a small-step
transition system. -/

/-- Program counter of the caller executing Clock.stop. -/
inductive MainPC where
  | beforeStop
  | joining
  | returned
  deriving DecidableEq, Repr

/-- Joint state of the clock thread and the thread calling stop: the enabled
flag, whether the run loop has exited (the thread is joinable as terminated),
and the stop caller's position. -/
structure ClockSys where
  enabled : Bool
  loopExited : Bool
  mainPC : MainPC
  deriving DecidableEq, Repr

/-- The state at Clock start: loop enabled and running, stop not yet called. -/
def ClockSys.start : ClockSys :=
  ⟨true, false, .beforeStop⟩

/-- Observable events of the joint system: a tick (one fan-out of callbacks
to the registered observers), or stop() returning to its caller; tau marks
internal steps. -/
inductive ClockEvent where
  | tick
  | stopReturn
  | tau
  deriving DecidableEq, Repr

/-- One interleaved step.  The clock thread, while not exited, either runs one
more tick (only when enabled is still set) or, seeing enabled cleared at the
loop head, exits.  The stop caller first clears enabled, then join() — which
completes, returning from stop, only once the loop has exited. -/
inductive ClockStep : ClockSys → ClockEvent → ClockSys → Prop where
  | loopTick (s : ClockSys) :
      s.loopExited = false → s.enabled = true → ClockStep s .tick s
  | loopExit (s : ClockSys) :
      s.loopExited = false → s.enabled = false →
      ClockStep s .tau { s with loopExited := true }
  | stopClear (s : ClockSys) :
      s.mainPC = .beforeStop →
      ClockStep s .tau { s with enabled := false, mainPC := .joining }
  | joinReturn (s : ClockSys) :
      s.mainPC = .joining → s.loopExited = true →
      ClockStep s .stopReturn { s with mainPC := .returned }

/-- A run of the joint system: the trace of events from one state to
another. -/
inductive ClockTrace : ClockSys → List ClockEvent → ClockSys → Prop where
  | nil (s : ClockSys) : ClockTrace s [] s
  | cons {s s' s'' : ClockSys} {e : ClockEvent} {es : List ClockEvent} :
      ClockStep s e s' → ClockTrace s' es s'' → ClockTrace s (e :: es) s''

/-- Once the loop has exited it stays exited, and no step from an exited
state is a tick. -/
theorem clockStep_exited {s s' : ClockSys} {e : ClockEvent}
    (hstep : ClockStep s e s') (h : s.loopExited = true) :
    s'.loopExited = true ∧ e ≠ ClockEvent.tick := by
  cases hstep with
  | loopTick hl _ => rw [hl] at h; cases h
  | loopExit hl _ => rw [hl] at h; cases h
  | stopClear _ => exact ⟨h, by decide⟩
  | joinReturn _ _ => exact ⟨h, by decide⟩

/-- After the loop has exited, no trace contains a tick. -/
theorem clockTrace_exited {s s' : ClockSys} {es : List ClockEvent}
    (htr : ClockTrace s es s') (h : s.loopExited = true) :
    ClockEvent.tick ∉ es := by
  induction htr with
  | nil => simp
  | cons hstep _ ih =>
    obtain ⟨hexited, hne⟩ := clockStep_exited hstep h
    simp only [List.mem_cons, not_or]
    exact ⟨fun hc => hne hc.symm, ih hexited⟩

/-- The only step emitting stopReturn is join() completing, which requires the
loop to have already exited; the post-state keeps loopExited set. -/
theorem clockStep_stopReturn {s s' : ClockSys}
    (hstep : ClockStep s .stopReturn s') :
    s.loopExited = true ∧ s'.loopExited = true := by
  cases hstep with
  | joinReturn _ hl => exact ⟨hl, hl⟩

/-! Claim about Clock.stop. -/

/-- C7: in every run of the joint clock/stop system, stop() returns only
after the run loop has fully exited — at the moment stop returns, the loop
has terminated — and no tick is delivered after stop has returned: the events
following stopReturn in any trace contain no tick. -/
theorem clock_stop_no_tick_after (s s' : ClockSys)
    (pre post : List ClockEvent)
    (htr : ClockTrace s (pre ++ ClockEvent.stopReturn :: post) s') :
    (∃ t t', ClockTrace s pre t ∧ ClockStep t ClockEvent.stopReturn t' ∧
      t.loopExited = true ∧ ClockTrace t' post s') ∧
    ClockEvent.tick ∉ post := by
  induction pre generalizing s with
  | nil =>
    cases htr with
    | cons hstep hrest =>
      obtain ⟨hl, hl'⟩ := clockStep_stopReturn hstep
      refine ⟨⟨s, _, ClockTrace.nil s, hstep, hl, hrest⟩, ?_⟩
      exact clockTrace_exited hrest hl'
  | cons e rest ih =>
    cases htr with
    | cons hstep hrest =>
      obtain ⟨⟨t, t', htr1, hsr, hl, htr2⟩, hnt⟩ := ih _ hrest
      exact ⟨⟨t, t', ClockTrace.cons hstep htr1, hsr, hl, htr2⟩, hnt⟩

/-- Witness for clock_stop_no_tick_after: the run that ticks once, has stop
called, lets the loop exit, and returns from join. -/
theorem clock_stop_no_tick_after_witness :
    (ClockTrace ClockSys.start
      [ClockEvent.tick, ClockEvent.tau, ClockEvent.tau, ClockEvent.stopReturn]
      ⟨false, true, MainPC.returned⟩) ∧
    ClockEvent.tick ∉ ([] : List ClockEvent) := by
  have htr : ClockTrace ClockSys.start
      ([ClockEvent.tick, ClockEvent.tau, ClockEvent.tau] ++ ClockEvent.stopReturn :: [])
      ⟨false, true, MainPC.returned⟩ :=
    ClockTrace.cons (ClockStep.loopTick ClockSys.start rfl rfl)
      (ClockTrace.cons (ClockStep.stopClear ClockSys.start rfl)
        (ClockTrace.cons (ClockStep.loopExit ⟨false, false, MainPC.joining⟩ rfl rfl)
          (ClockTrace.cons (ClockStep.joinReturn ⟨false, true, MainPC.joining⟩ rfl rfl)
            (ClockTrace.nil ⟨false, true, MainPC.returned⟩))))

  exact ⟨htr, (clock_stop_no_tick_after ClockSys.start ⟨false, true, MainPC.returned⟩
    [ClockEvent.tick, ClockEvent.tau, ClockEvent.tau] [] htr).2⟩

/-! The configuration loader: load_conf and the codec machinery it relies
on.  bytes.decode resolves its encoding argument through CPython's codec
lookup, which normalizes the requested name before matching it against the
registered codecs, so the name passed by load_conf must be modelled through
that normalization. -/

/-- Modelled from CPython encodings.normalize_encoding: walk the characters,
keep ASCII alphanumerics and dots, and collapse every run of other
characters into a single underscore (emitted only between kept characters).
punct records a pending run; acc holds the kept characters reversed.
(Python's isalnum is Unicode-aware; ASCII-only inputs, the only ones used
here, agree with Char.isAlphanum.) -/
def normalizeGo : List Char → Bool → List Char → List Char
  | [], _, acc => acc.reverse
  | c :: rest, punct, acc =>
    if c.isAlphanum ∨ c = '.' then
      let acc1 := if punct ∧ acc ≠ [] then '_' :: acc else acc
      let acc2 := if c.toNat < 128 then c :: acc1 else acc1
      normalizeGo rest false acc2
    else normalizeGo rest true acc

/-- Modelled from CPython encodings.normalize_encoding (see normalizeGo). -/
def normalize_encoding (s : String) : String :=
  String.mk (normalizeGo s.data false [])

/-- The module name and registered aliases under which CPython's codec
machinery resolves the UTF-8 codec. -/
def utf8Names : List String := ["utf_8", "u8", "utf", "utf8", "cp65001"]

/-- Modelled from CPython codec lookup for the utf-8 family: the requested
name is lower-cased, then normalized; it resolves to the UTF-8 codec iff the
result is the utf_8 module name or one of its aliases. -/
def lookup_utf8 (enc : String) : Bool :=
  utf8Names.contains (normalize_encoding (String.mk (enc.data.map Char.toLower)))

/-- Modelled from bytes.decode: an encoding name that resolves to no codec
raises LookupError; the UTF-8 codec is modelled on the ASCII plane — each
byte below 128 decodes to the corresponding character, and multi-byte
sequences are outside the model, reported as a decode error. -/
def bytes_decode (enc : String) (bs : List Nat) : Except PyErr String :=
  if lookup_utf8 enc then
    if bs.all (fun b => b < 128) then .ok (String.mk (bs.map Char.ofNat))
    else .error .unicodeDecodeError
  else .error (.lookupError enc)

/-- Modelled from toml.loads, restricted to the trivial documents the claims
need: a document of only whitespace parses to the empty table; any other
content is outside the model and reported as a parse error. -/
def toml_loads (s : String) : Except PyErr (List (String × String)) :=
  if s.data.all (fun c => c = ' ' ∨ c = '\n' ∨ c = '\t' ∨ c = '\r') then .ok []
  else .error .tomlDecodeError

/-- load_conf: open the file in binary mode (a missing file raises
FileNotFoundError), read its bytes, decode them with the encoding name
"utf=8", and parse the decoded text as TOML. -/
def load_conf (f : FileContent) : Except PyErr (List (String × String)) :=
  match f with
  | .missing => .error .fileNotFoundError
  | .present bs =>
    match bytes_decode "utf=8" bs with
    | .error e => .error e
    | .ok s => toml_loads s

/-! Claim about load_conf. -/

/-- C10 (counterexample): "utf=8" is not an unrecognized encoding — codec
name normalization rewrites it to "utf_8" — and load_conf of the empty file
returns the empty configuration instead of raising; so load_conf does not
raise on every input. -/
theorem load_conf_succeeds_counterexample :
    normalize_encoding "utf=8" = "utf_8" ∧
    load_conf (.present []) = .ok [] :=
  ⟨rfl, rfl⟩

/-- C10 (amended): the encoding name "utf=8" passed by load_conf resolves,
through CPython's codec-name normalization, to the UTF-8 codec, so load_conf
decodes the file as UTF-8: for a readable file whose bytes decode (modelled
on the ASCII plane) to a parseable TOML document, load_conf returns the
configuration; it raises only for a missing file, undecodable bytes or
unparseable content. -/
theorem load_conf_amended (bs : List Nat) (hascii : ∀ b ∈ bs, b < 128)
    (htoml : toml_loads (String.mk (bs.map Char.ofNat)) = .ok []) :
    lookup_utf8 "utf=8" = true ∧
    load_conf (.present bs) = .ok [] ∧
    load_conf .missing = .error .fileNotFoundError := by
  refine ⟨rfl, ?_, rfl⟩
  have hall : bs.all (fun b => decide (b < 128)) = true :=
    List.all_eq_true.mpr (fun b hb => decide_eq_true (hascii b hb))
  have hlook : lookup_utf8 "utf=8" = true := rfl
  have hdecode : bytes_decode "utf=8" bs = .ok (String.mk (bs.map Char.ofNat)) := by
    simp [bytes_decode, hlook, hall]
  simp [load_conf, hdecode, htoml]

/-- Witness for load_conf_amended: a configuration file holding one space and
one newline loads as the empty configuration. -/
theorem load_conf_amended_witness :
    (∀ b ∈ ([32, 10] : List Nat), b < 128) ∧
    load_conf (.present [32, 10]) = .ok [] := by
  have h := load_conf_amended [32, 10] (by decide) (by rfl)
  exact ⟨by decide, h.2.1⟩

end PyCart
